import Mathlib

/-!
Verification development for the specification-driven LoadData generation
engine (`load_data_generate_v2.py` together with the models in
`load_data_models.py`).  The Python code is shallowly embedded: pandas
rows and dicts become association lists of string keys to values,
exceptions become `Option` (with `none` standing for an uncaught
exception), and the `eval`-based expression mode as well as the pandas
`query` filter become oracle functions supplied as parameters.
-/

namespace Pcpip

/-- A Python value as it occurs in samplesheet cells, template-variable
scopes and generated cells: either a string or an integer. -/
inductive Val where
  | vStr : String → Val
  | vInt : Int → Val
  deriving DecidableEq, Repr

/-- A pandas `Series` row (and likewise a Python dict) is modelled as an
association list from field names to values, in insertion order. -/
abbrev SampleRow := List (String × Val)

/-- A generated output row: the sequence of `(column name, value)` cells in
emission order (the order in which the Python code inserts them into the
row dict). -/
abbrev Row := List (String × Val)

/-- First-match lookup in an association list, the semantics of `d[k]` /
`k in d` on a Python dict whose keys are unique. -/
def assocFind {α : Type} (l : List (String × α)) (k : String) : Option α :=
  match l with
  | [] => none
  | (k2, v) :: rest => if k2 = k then some v else assocFind rest k

/-- Python `row.get(k, d)`. -/
def rowGetD (r : SampleRow) (k : String) (d : Val) : Val :=
  (assocFind r k).getD d

/-- Python truthiness of a value: empty string and zero are falsy. -/
def valTruthy : Val → Bool
  | Val.vStr s => s ≠ ""
  | Val.vInt n => n ≠ 0

/-- Python `str(val)`. -/
def pyStr : Val → String
  | Val.vStr s => s
  | Val.vInt n => toString n

/-- Digit accumulation used by the model of the Python `int` builtin:
succeeds only on a nonempty all-digit character list. -/
def digitsVal (l : List Char) : Option Nat :=
  match l with
  | [] => none
  | _ => l.foldlM (fun acc c => if c.isDigit then some (acc * 10 + (c.toNat - 48)) else none) 0

/-- Model of `int(s)` on strings: an optional sign followed by a nonempty
run of decimal digits; anything else raises (`none`).  (The builtin also
strips surrounding whitespace and accepts underscores; those inputs do not
occur in this system.) -/
def parseIntChars : List Char → Option Int
  | '-' :: rest => (digitsVal rest).map (fun n => -(n : Int))
  | '+' :: rest => (digitsVal rest).map (fun n => (n : Int))
  | l => (digitsVal l).map (fun n => (n : Int))

/-- Python `int(val)`: identity on ints, decimal parse on strings. -/
def pyInt : Val → Option Int
  | Val.vInt n => some n
  | Val.vStr s => parseIntChars s.data

/-- Python `f"{n:02d}"`: decimal representation zero-padded to width 2;
values of three or more digits are kept untruncated. -/
def fmt02 (n : Int) : String :=
  if 0 ≤ n ∧ n < 10 then "0" ++ toString n else toString n

/-- Attempt to strip `pat` from the front of `s`, returning the remainder. -/
def dropPat : List Char → List Char → Option (List Char)
  | [], s => some s
  | _ :: _, [] => none
  | p :: ps, c :: cs => if p = c then dropPat ps cs else none

theorem dropPat_length : ∀ (ps cs r : List Char), dropPat ps cs = some r → r.length ≤ cs.length := by
  intro ps
  induction ps with
  | nil =>
    intro cs r h
    simp [dropPat] at h
    simp [h]
  | cons p ps ih =>
    intro cs r h
    cases cs with
    | nil => simp [dropPat] at h
    | cons c cs2 =>
      simp only [dropPat] at h
      by_cases hpc : p = c
      · simp only [hpc, if_pos rfl] at h
        exact Nat.le_succ_of_le (ih cs2 r h)
      · simp [hpc] at h

/-- Python substring containment `pat in s` (for the nonempty patterns used
here): `pat` occurs at some position of `s`. -/
def hasPat (pat : List Char) : List Char → Bool
  | [] => (dropPat pat []).isSome
  | c :: rest => (dropPat pat (c :: rest)).isSome || hasPat pat rest

theorem dropPat_cons_length (p : Char) (ps : List Char) (c : Char) (cs r : List Char)
    (h : dropPat (p :: ps) (c :: cs) = some r) : r.length ≤ cs.length := by
  simp only [dropPat] at h
  by_cases hpc : p = c
  · simp only [hpc, if_pos rfl] at h
    exact dropPat_length ps cs r h
  · simp [hpc] at h

/-- Python `s.replace(pat, repl)` for a nonempty pattern `p :: ps`:
replace every non-overlapping occurrence, scanning left to right.  The
fuel argument only drives structural recursion; each step consumes at
least one character, so fuel `s.length` (as `replOcc` passes) always
suffices and the `0` branch is unreachable. -/
def replOccFuel (p : Char) (ps repl : List Char) : Nat → List Char → List Char
  | _, [] => []
  | 0, s => s
  | fuel + 1, c :: rest =>
    match dropPat (p :: ps) (c :: rest) with
    | some suffix => repl ++ replOccFuel p ps repl fuel suffix
    | none => c :: replOccFuel p ps repl fuel rest

/-- Python `s.replace(pat, repl)` for a nonempty pattern. -/
def replOcc (p : Char) (ps repl s : List Char) : List Char :=
  replOccFuel p ps repl s.length s

/-- Python `s.replace(pat, repl)`; the patterns fed to it in this code are
always brace-delimited placeholders, hence nonempty. -/
def replAll (pat repl s : List Char) : List Char :=
  match pat with
  | [] => s
  | p :: ps => replOcc p ps repl s

/-- The formatted placeholder string `"{" + key + ":02d}"` built in
`generate_column_value` and `expand_column_name`. -/
def fmtPat (key : String) : List Char :=
  ("\x7b" ++ key ++ ":02d\x7d").data

/-- The plain placeholder string `"{" + key + "}"`. -/
def plainPat (key : String) : List Char :=
  ("\x7b" ++ key ++ "\x7d").data

/-- One iteration of the substitution loop shared by `expand_column_name`
and the `pattern` branch of `generate_column_value`: for one scope entry,
substitute the formatted placeholder first (converting the value with
`int`, which can raise) and then the plain placeholder. -/
def substKey (key : String) (v : Val) (s : List Char) : Option (List Char) :=
  let step1 : Option (List Char) :=
    if hasPat (fmtPat key) s then
      match pyInt v with
      | some n => some (replAll (fmtPat key) (fmt02 n).data s)
      | none => none
    else some s
  match step1 with
  | none => none
  | some s1 =>
    if hasPat (plainPat key) s1 then some (replAll (plainPat key) (pyStr v).data s1)
    else some s1

/-- Template expansion: fold the per-key substitution over the scope in
insertion order; `none` models an uncaught exception from `int`. -/
def expandTemplate (tmpl : String) (scope : List (String × Val)) : Option String :=
  (scope.foldlM (fun acc kv => substKey kv.1 kv.2 acc) tmpl.data).map String.mk

/-- `expand_column_name` duplicates the substitution loop of the `pattern`
branch verbatim, so both are the same function of template and scope. -/
def expandColumnName (name : String) (scope : List (String × Val)) : Option String :=
  expandTemplate name scope

/-- Python `s.split(sep)` for a one-character separator: note that
splitting the empty string yields `[""]`, not `[]`. -/
def splitChars (sep : Char) : List Char → List (List Char)
  | [] => [[]]
  | c :: rest =>
    let r := splitChars sep rest
    if c = sep then [] :: r
    else
      match r with
      | [] => [[c]]
      | h :: t => (c :: h) :: t

/-- `row["channels"].split(",")`. -/
def splitChannels (s : String) : List String :=
  (splitChars ',' s.data).map String.mk

/-- Python `list.index(x)` returning the first position of an exact match,
`none` modelling the `ValueError`. -/
def listIndex (x : String) : List String → Option Nat
  | [] => none
  | y :: ys => if y = x then some 0 else (listIndex x ys).map (fun n => n + 1)

/-- The channel-order resolution done inline in the strategies:
`try: samplesheet_channels.index(channel) except ValueError:
channels.index(channel)` — the row's own list first, then the canonical
list; absence from both is an uncaught `ValueError`. -/
def resolveChannelIndex (rowChannels canonical : List String) (ch : String) : Option Nat :=
  match listIndex ch rowChannels with
  | some i => some i
  | none => listIndex ch canonical

/-- The path components used by `pathlib` name computations: `/`-separated
segments with empty and `.` segments normalized away (relative paths as the
samplesheets contain). -/
def pathParts (s : String) : List String :=
  ((splitChars '/' s.data).map String.mk).filter (fun x => x ≠ "" && x ≠ ".")

/-- `Path(s).name`: the last path segment. -/
def pathName (s : String) : String :=
  ((pathParts s).getLast?).getD ""

/-- `Path(s).parent.name`: the last segment of the parent directory. -/
def pathParentName (s : String) : String :=
  ((pathParts s).dropLast.getLast?).getD ""

/-- Python truthiness of an `Optional[str]` field: `None` and `""` falsy. -/
def truthyOptStr : Option String → Bool
  | some s => s ≠ ""
  | none => false

/-- Definition for a single output column (`ColumnDefinition` in
`load_data_models.py`): a name template and four optional resolution
modes. -/
structure ColumnDefinition where
  name : String
  source : Option String := none
  pattern : Option String := none
  value : Option Val := none
  expression : Option String := none
  deriving DecidableEq, Repr

/-- The validation performed when a `ColumnDefinition` is constructed at
load time: `name_not_empty` plus `model_post_init`, which rejects a
definition only when all four resolution modes are `None`. -/
def columnDefValid (c : ColumnDefinition) : Bool :=
  c.name ≠ "" &&
    !(c.source.isNone && c.pattern.isNone && c.value.isNone && c.expression.isNone)

/-- Resolution of a `source`-mode cell: the row first, then the scope, then
the empty string. -/
def sourceResolve (src : String) (row : SampleRow) (tv : List (String × Val)) : Val :=
  match assocFind row src with
  | some v => v
  | none =>
    match assocFind tv src with
    | some v => v
    | none => Val.vStr ""

/-- Resolution of a `pattern`-mode cell: template expansion against the
scope (which can raise, hence `Option`). -/
def patternResolve (pat : String) (tv : List (String × Val)) : Option Val :=
  (expandTemplate pat tv).map Val.vStr

/-- Resolution of a `value`-mode cell: the symbolic values
`"channel_index"` and `"tile"` read the scope (with defaults 0 and 1);
anything else is returned unchanged. -/
def valueResolve (v : Val) (tv : List (String × Val)) : Val :=
  if v = Val.vStr "channel_index" then (assocFind tv "channel_index").getD (Val.vInt 0)
  else if v = Val.vStr "tile" then (assocFind tv "tile").getD (Val.vInt 1)
  else v

/-- Python dict merge `{**a, **b}`: keys of `a` in order with `b`'s value
where both define a key, then the keys only `b` has. -/
def mergeVars (a b : List (String × Val)) : List (String × Val) :=
  (a.map (fun kv => (kv.1, (assocFind b kv.1).getD kv.2)))
    ++ b.filter (fun kv => (assocFind a kv.1).isNone)

/-- Resolution of an `expression`-mode cell: evaluate through the supplied
oracle (standing for Python `eval` over `{**row.to_dict(),
**template_vars}`); on failure log and yield the empty string — never
raise. -/
def exprResolve (evalE : String → List (String × Val) → Option Val)
    (e : String) (row : SampleRow) (tv : List (String × Val)) : Val :=
  match evalE e (mergeVars row tv) with
  | some v => v
  | none => Val.vStr ""

/-- `LoadDataGenerator.generate_column_value`: the `if`/`elif` chain over
the four resolution modes, guarded by Python truthiness for `source`,
`pattern` and `expression` and by `is not None` for `value`; the final
fallthrough returns the empty string. -/
def generateColumnValue (evalE : String → List (String × Val) → Option Val)
    (c : ColumnDefinition) (row : SampleRow) (tv : List (String × Val)) : Option Val :=
  if truthyOptStr c.source then some (sourceResolve (c.source.getD "") row tv)
  else if truthyOptStr c.pattern then patternResolve (c.pattern.getD "") tv
  else if c.value.isSome then some (valueResolve (c.value.getD (Val.vStr "")) tv)
  else if truthyOptStr c.expression then some (exprResolve evalE (c.expression.getD "") row tv)
  else some (Val.vStr "")

/-- Emit the cells of a list of column definitions against one row and one
scope: for each definition, expand the column name and resolve the value,
in order; any uncaught exception aborts (`none`). -/
def emitColumns (evalE : String → List (String × Val) → Option Val)
    (cols : List ColumnDefinition) (row : SampleRow) (tv : List (String × Val)) : Option Row :=
  cols.mapM (fun c => do
    let n ← expandColumnName c.name tv
    let v ← generateColumnValue evalE c row tv
    pure (n, v))

/-- A special rule attached to a per-cycle-per-channel group, modelled as a
dict that may carry an `only_cycle` entry. -/
structure SpecialRule where
  only_cycle : Option Val := none
  deriving DecidableEq, Repr

/-- `PerChannelColumns`: a channel-set name and column definitions. -/
structure PerChannelColumns where
  channels : String
  columns : List ColumnDefinition
  deriving DecidableEq, Repr

/-- `PerCyclePerChannelColumns`: channel-set name, column definitions and
special rules (the absent `None` dict and the empty dict behave alike, so
both are the empty list). -/
structure PerCyclePerChannelColumns where
  channels : String
  columns : List ColumnDefinition
  special_rules : List (String × SpecialRule) := []
  deriving DecidableEq, Repr

/-- `BarcodingChannels` (pipeline 9). -/
structure BarcodingChannels where
  cycles : List Int
  channels : List String
  columns : List ColumnDefinition
  deriving DecidableEq, Repr

/-- `BarcodingDNA` (pipeline 9). -/
structure BarcodingDNA where
  cycles : List Int
  columns : List ColumnDefinition
  deriving DecidableEq, Repr

/-- `PaintingChannels` (pipeline 9). -/
structure PaintingChannels where
  channels : List String
  columns : List ColumnDefinition
  deriving DecidableEq, Repr

/-- `PipelineColumns`: metadata column definitions plus the optional column
groups. -/
structure PipelineColumns where
  metadata : List ColumnDefinition
  per_channel : Option PerChannelColumns := none
  per_channel_orig : Option PerChannelColumns := none
  per_channel_illum : Option PerChannelColumns := none
  per_cycle_per_channel : Option PerCyclePerChannelColumns := none
  per_cycle_per_channel_orig : Option PerCyclePerChannelColumns := none
  per_cycle_per_channel_illum : Option PerCyclePerChannelColumns := none
  barcoding_channels : Option BarcodingChannels := none
  barcoding_dna : Option BarcodingDNA := none
  painting_channels : Option PaintingChannels := none
  deriving DecidableEq, Repr

/-- `PipelineDefinition`: the `Optional[bool]` flags collapse `None` and
`False` to `false` since the generator only tests their truthiness. -/
structure PipelineDefinition where
  name : String
  filter : String
  grouping : List String
  columns : PipelineColumns
  wide_format : Bool := false
  cycles : Option (List Int) := none
  tiles_per_well : Option Int := none
  synthetic_tiles : Bool := false
  deriving DecidableEq, Repr

/-- The `metadata` block of a specification. -/
structure SpecMetadata where
  description : String
  version : String
  base_path : String
  deriving DecidableEq, Repr

/-- `LoadDataSpec`: channel sets and pipelines keyed by name/id. -/
structure LoadDataSpec where
  metadata : SpecMetadata
  channel_definitions : List (String × List String)
  pipelines : List (String × PipelineDefinition)
  special_values : List (String × String) := []
  deriving DecidableEq, Repr

/-- `LoadDataSpec.get_channels`; `none` models the raised `ValueError`. -/
def getChannels (spec : LoadDataSpec) (name : String) : Option (List String) :=
  assocFind spec.channel_definitions name

/-- `LoadDataSpec.get_pipeline`; `none` models the raised `ValueError`. -/
def getPipeline (spec : LoadDataSpec) (id : String) : Option PipelineDefinition :=
  assocFind spec.pipelines id

/-- Remove duplicates keeping the first occurrence of each element, the
behaviour of pandas `unique()`. -/
def dedupSeen {α : Type} [DecidableEq α] (seen : List α) : List α → List α
  | [] => []
  | x :: xs => if x ∈ seen then dedupSeen seen xs else x :: dedupSeen (x :: seen) xs

/-- First-occurrence deduplication. -/
def dedup {α : Type} [DecidableEq α] (l : List α) : List α :=
  dedupSeen [] l

/-- Lexicographic comparison of character lists by code point, the string
ordering Python's `sorted` and pandas' sorted `groupby` keys use. -/
def charListLe : List Char → List Char → Bool
  | [], _ => true
  | _ :: _, [] => false
  | a :: as, b :: bs =>
    if a.toNat < b.toNat then true
    else if b.toNat < a.toNat then false
    else charListLe as bs

/-- Ordering on values used for sorting cycle lists and groupby keys;
pandas only ever compares homogeneous key columns, so the cross-type cases
are an arbitrary fixed choice. -/
def valLe : Val → Val → Bool
  | Val.vInt a, Val.vInt b => decide (a ≤ b)
  | Val.vStr a, Val.vStr b => charListLe a.data b.data
  | Val.vInt _, Val.vStr _ => true
  | Val.vStr _, Val.vInt _ => false

/-- Lexicographic ordering on `(well, site)` groupby keys. -/
def valPairLe (a b : Val × Val) : Bool :=
  if a.1 = b.1 then valLe a.2 b.2 else valLe a.1 b.1

/-- Insert into a sorted list (stable). -/
def insertBy {α : Type} (le : α → α → Bool) (x : α) : List α → List α
  | [] => [x]
  | y :: ys => if le x y then x :: y :: ys else y :: insertBy le x ys

/-- Insertion sort, modelling Python `sorted` and pandas sorted group
keys. -/
def sortBy {α : Type} (le : α → α → Bool) (l : List α) : List α :=
  l.foldr (insertBy le) []

/-- The per-row template variables built by `_generate_standard`:
samplesheet fields plus `filename` / `acquisition_folder` derived from the
`path` field (empty when the field is absent or falsy). -/
def stdTemplateVars (basePath : String) (row : SampleRow) : List (String × Val) :=
  let fa : String × String :=
    match assocFind row "path" with
    | some v => if valTruthy v then (pathName (pyStr v), pathParentName (pyStr v)) else ("", "")
    | none => ("", "")
  [("base_path", Val.vStr basePath),
   ("plate", rowGetD row "plate" (Val.vStr "")),
   ("well", rowGetD row "well" (Val.vStr "")),
   ("site", rowGetD row "site" (Val.vStr "")),
   ("cycle", rowGetD row "cycle" (Val.vStr "")),
   ("acquisition_folder", Val.vStr fa.2),
   ("filename", Val.vStr fa.1)]

/-- One pass over a channel list: for each channel, resolve its index
through `idxOf`, extend the scope with `channel` and `channel_index`, and
emit the group's columns.  The orig passes use the row/canonical index
resolution; the illum passes use the constant index 0. -/
def stdChannelPass (evalE : String → List (String × Val) → Option Val)
    (channels : List String) (idxOf : String → Option Nat)
    (cols : List ColumnDefinition) (row : SampleRow) (tv : List (String × Val)) : Option Row :=
  channels.foldlM (fun acc ch => do
    let i ← idxOf ch
    let cvars := tv ++ [("channel", Val.vStr ch), ("channel_index", Val.vInt (Int.ofNat i))]
    let block ← emitColumns evalE cols row cvars
    pure (acc ++ block)) []

/-- The samplesheet channel order for one row: the row's comma-joined
`channels` field when present, otherwise the canonical list. -/
def rowChannels (row : SampleRow) (canonical : List String) : List String :=
  match assocFind row "channels" with
  | some v => splitChannels (pyStr v)
  | none => canonical

/-- `LoadDataGenerator._generate_standard`, one sample row: metadata
columns, then the separated orig/illum passes when both groups are set,
else the combined per-channel pass, else metadata only. -/
def generateStandardRow (evalE : String → List (String × Val) → Option Val)
    (spec : LoadDataSpec) (pipeline : PipelineDefinition) (basePath : String)
    (row : SampleRow) : Option Row := do
  let tv := stdTemplateVars basePath row
  let meta ← emitColumns evalE pipeline.columns.metadata row tv
  match pipeline.columns.per_channel_orig, pipeline.columns.per_channel_illum with
  | some og, some ig => do
    let channels ← getChannels spec og.channels
    let ssCh := rowChannels row channels
    let orig ← stdChannelPass evalE channels (resolveChannelIndex ssCh channels) og.columns row tv
    let illum ← stdChannelPass evalE channels (fun _ => some 0) ig.columns row tv
    pure (meta ++ orig ++ illum)
  | _, _ =>
    match pipeline.columns.per_channel with
    | some g => do
      let channels ← getChannels spec g.channels
      let ssCh := rowChannels row channels
      let comb ← stdChannelPass evalE channels (resolveChannelIndex ssCh channels) g.columns row tv
      pure (meta ++ comb)
    | none => pure meta

/-- `LoadDataGenerator._generate_standard`: one output row per filtered
sample row, in order. -/
def generateStandard (evalE : String → List (String × Val) → Option Val)
    (spec : LoadDataSpec) (pipeline : PipelineDefinition) (basePath : String)
    (filtered : List SampleRow) : Option (List Row) :=
  filtered.foldlM (fun acc row =>
    (generateStandardRow evalE spec pipeline basePath row).map (fun r => acc ++ [r])) []

/-- The `(well, site)` groupby key of a row; a missing column is a raised
`KeyError`. -/
def groupKeyOf (r : SampleRow) : Option (Val × Val) := do
  let w ← assocFind r "well"
  let s ← assocFind r "site"
  pure (w, s)

/-- The per-cycle scope extension of `_generate_wide_format`: the group
scope plus `cycle` and the `acquisition_folder` / `filename` derived from
the representative row of that cycle. -/
def cycleVars (tv : List (String × Val)) (cy : Val) (path : Val) : List (String × Val) :=
  tv ++ [("cycle", cy),
         ("acquisition_folder", Val.vStr (pathParentName (pyStr path))),
         ("filename", Val.vStr (pathName (pyStr path)))]

/-- One full orig or illum pass of the wide-format strategy: for each cycle
in order, pick the first row of the group with that cycle, extend the
scope, and run the channel pass over the canonical channel list (row-order
index resolution for orig, constant 0 for illum). -/
def wideCyclePass (evalE : String → List (String × Val) → Option Val)
    (channels : List String) (useRowIdx : Bool) (cols : List ColumnDefinition)
    (group : List SampleRow) (cycles : List Val) (tv : List (String × Val)) : Option Row :=
  cycles.foldlM (fun acc cy => do
    let cycleRow ← (group.filter (fun r => assocFind r "cycle" = some cy)).head?
    let path ← assocFind cycleRow "path"
    let cvars := cycleVars tv cy path
    let ssCh := rowChannels cycleRow channels
    let idxOf : String → Option Nat :=
      if useRowIdx then resolveChannelIndex ssCh channels else fun _ => some 0
    let block ← stdChannelPass evalE channels idxOf cols cycleRow cvars
    pure (acc ++ block)) []

/-- The special-rule check of the combined wide-format branch: a channel is
skipped at a cycle iff its rule carries an `only_cycle` entry different
from that cycle. -/
def skipChannel (rules : List (String × SpecialRule)) (ch : String) (cy : Val) : Bool :=
  match assocFind rules ch with
  | some r =>
    match r.only_cycle with
    | some oc => cy ≠ oc
    | none => false
  | none => false

/-- The inner channel loop of the combined (old-style) wide-format branch:
channels restricted by the special rules via `continue`, otherwise the same
emission as `stdChannelPass`. -/
def combinedChannelPass (evalE : String → List (String × Val) → Option Val)
    (channels : List String) (rules : List (String × SpecialRule)) (cy : Val)
    (ssCh : List String) (cols : List ColumnDefinition) (cycleRow : SampleRow)
    (cvars : List (String × Val)) : Option Row :=
  channels.foldlM (fun acc ch =>
    if skipChannel rules ch cy then pure acc
    else do
      let i ← resolveChannelIndex ssCh channels ch
      let chv := cvars ++ [("channel", Val.vStr ch), ("channel_index", Val.vInt (Int.ofNat i))]
      let block ← emitColumns evalE cols cycleRow chv
      pure (acc ++ block)) []

/-- The combined (old-style interleaved) wide-format pass over cycles and
channels, applying the group's special rules. -/
def wideCombinedPass (evalE : String → List (String × Val) → Option Val)
    (channels : List String) (rules : List (String × SpecialRule))
    (cols : List ColumnDefinition) (group : List SampleRow) (cycles : List Val)
    (tv : List (String × Val)) : Option Row :=
  cycles.foldlM (fun acc cy => do
    let cycleRow ← (group.filter (fun r => assocFind r "cycle" = some cy)).head?
    let path ← assocFind cycleRow "path"
    let cvars := cycleVars tv cy path
    let ssCh := rowChannels cycleRow channels
    let block ← combinedChannelPass evalE channels rules cy ssCh cols cycleRow cvars
    pure (acc ++ block)) []

/-- One wide-format output row, for one sorted `(well, site)` group key:
metadata from the representative row, then either the separated orig/illum
passes (special rules not consulted) or the combined pass with special
rules, over the sorted distinct cycles of the group. -/
def wideRowFor (evalE : String → List (String × Val) → Option Val)
    (spec : LoadDataSpec) (pipeline : PipelineDefinition) (basePath : String)
    (filtered : List SampleRow) (key : Val × Val) : Option Row := do
  let group := filtered.filter (fun r => groupKeyOf r = some key)
  let first ← group.head?
  let plate ← assocFind first "plate"
  let cyclesRaw ← group.mapM (fun r => assocFind r "cycle")
  let cycles := sortBy valLe (dedup cyclesRaw)
  let tv := [("base_path", Val.vStr basePath), ("plate", plate),
             ("well", key.1), ("site", key.2)]
  let meta ← emitColumns evalE pipeline.columns.metadata first tv
  match pipeline.columns.per_cycle_per_channel_orig,
        pipeline.columns.per_cycle_per_channel_illum with
  | some og, some ig => do
    let channels ← getChannels spec og.channels
    let orig ← wideCyclePass evalE channels true og.columns group cycles tv
    let illum ← wideCyclePass evalE channels false ig.columns group cycles tv
    pure (meta ++ orig ++ illum)
  | _, _ =>
    match pipeline.columns.per_cycle_per_channel with
    | some g => do
      let channels ← getChannels spec g.channels
      let comb ← wideCombinedPass evalE channels g.special_rules g.columns group cycles tv
      pure (meta ++ comb)
    | none => pure meta

/-- `LoadDataGenerator._generate_wide_format`: group the filtered rows by
`(well, site)` (sorted keys, as pandas `groupby` yields them) and emit one
row per group. -/
def generateWideFormat (evalE : String → List (String × Val) → Option Val)
    (spec : LoadDataSpec) (pipeline : PipelineDefinition) (basePath : String)
    (filtered : List SampleRow) : Option (List Row) := do
  let keys ← filtered.mapM groupKeyOf
  let gkeys := sortBy valPairLe (dedup keys)
  gkeys.foldlM (fun acc key =>
    (wideRowFor evalE spec pipeline basePath filtered key).map (fun r => acc ++ [r])) []

/-- `range(1, tiles_per_well + 1)`. -/
def tileRange (n : Int) : List Int :=
  (List.range n.toNat).map (fun i => (Int.ofNat i) + 1)

/-- One synthetic-tile output row of `_generate_pipeline_9`, for one well
and tile index: metadata (with `source == "tile"` columns special-cased to
the tile number), then the barcoding cycle×channel block, the cycle-only
barcoding DNA block, and the channel-only painting block, all resolved
against the first filtered row. -/
def p9TileRow (evalE : String → List (String × Val) → Option Val)
    (pipeline : PipelineDefinition) (basePath : String) (first : SampleRow)
    (plate well : Val) (tile : Int) : Option Row := do
  let tv := [("base_path", Val.vStr basePath), ("plate", plate),
             ("well", well), ("tile", Val.vInt tile)]
  let meta ← pipeline.columns.metadata.mapM (fun c => do
    let n ← expandColumnName c.name tv
    if c.source = some "tile" then pure (n, Val.vInt tile)
    else do
      let v ← generateColumnValue evalE c first tv
      pure (n, v))
  let bc ←
    match pipeline.columns.barcoding_channels with
    | some b =>
      b.cycles.foldlM (fun acc cy => do
        let inner ← b.channels.foldlM (fun acc2 ch => do
          let cvars := tv ++ [("cycle", Val.vInt cy), ("channel", Val.vStr ch)]
          let cells ← emitColumns evalE b.columns first cvars
          pure (acc2 ++ cells)) []
        pure (acc ++ inner)) []
    | none => pure []
  let bd ←
    match pipeline.columns.barcoding_dna with
    | some b =>
      b.cycles.foldlM (fun acc cy => do
        let cvars := tv ++ [("cycle", Val.vInt cy), ("channel", Val.vStr "DNA")]
        let cells ← emitColumns evalE b.columns first cvars
        pure (acc ++ cells)) []
    | none => pure []
  let pc ←
    match pipeline.columns.painting_channels with
    | some p =>
      p.channels.foldlM (fun acc ch => do
        let cells ← emitColumns evalE p.columns first (tv ++ [("channel", Val.vStr ch)])
        pure (acc ++ cells)) []
    | none => pure []
  pure (meta ++ bc ++ bd ++ pc)

/-- `LoadDataGenerator._generate_pipeline_9`: for each distinct well (in
appearance order) and each tile index `1..tiles_per_well` (the flag
defaulting to 4, also when set falsy), emit one synthetic row; the plate is
read from the first filtered row inside the well loop, so an empty filtered
table yields no rows and no error. -/
def generatePipeline9 (evalE : String → List (String × Val) → Option Val)
    (pipeline : PipelineDefinition) (basePath : String)
    (filtered : List SampleRow) : Option (List Row) := do
  let tpw : Int :=
    match pipeline.tiles_per_well with
    | some n => if n ≠ 0 then n else 4
    | none => 4
  let wellsRaw ← filtered.mapM (fun r => assocFind r "well")
  let wells := dedup wellsRaw
  wells.foldlM (fun acc well => do
    let first ← filtered.head?
    let plate ← assocFind first "plate"
    (tileRange tpw).foldlM (fun acc2 tile =>
      (p9TileRow evalE pipeline basePath first plate well tile).map (fun r => acc2 ++ [r])) acc) []

/-- The post-filter sample table of `generate_pipeline`: apply the
pipeline's pandas `query` filter (through the query oracle) unless the
filter string is falsy. -/
def filterSamples (queryO : String → SampleRow → Bool)
    (pipeline : PipelineDefinition) (samples : List SampleRow) : List SampleRow :=
  if pipeline.filter ≠ "" then samples.filter (queryO pipeline.filter) else samples

/-- The effective base path: the argument unless falsy, else the spec
default (`base_path = base_path or self.spec.metadata.base_path`). -/
def resolveBasePath (basePathArg : Option String) (spec : LoadDataSpec) : String :=
  match basePathArg with
  | some s => if s ≠ "" then s else spec.metadata.base_path
  | none => spec.metadata.base_path

/-- `LoadDataGenerator.generate_pipeline`: look up the pipeline, resolve
the base path, filter the samplesheet, and dispatch — wide format when the
`wide_format` flag is truthy AND the id is `"6"` or `"7"`, else the
synthetic-tile strategy exactly when the id is `"9"`, else standard. -/
def generatePipeline (evalE : String → List (String × Val) → Option Val)
    (queryO : String → SampleRow → Bool) (spec : LoadDataSpec) (pipelineId : String)
    (samples : List SampleRow) (basePathArg : Option String) : Option (List Row) := do
  let pipeline ← getPipeline spec pipelineId
  let basePath := resolveBasePath basePathArg spec
  let filtered := filterSamples queryO pipeline samples
  if pipeline.wide_format && (pipelineId == "6" || pipelineId == "7") then
    generateWideFormat evalE spec pipeline basePath filtered
  else if pipelineId == "9" then
    generatePipeline9 evalE pipeline basePath filtered
  else
    generateStandard evalE spec pipeline basePath filtered

/-!  Helper lemmas about the `Option`-monad folds used by the strategies. -/

theorem foldlM_append_eq_mapM {α β : Type} (f : α → Option β) (l : List α) :
    ∀ acc : List β,
      l.foldlM (fun acc x => (f x).map (fun y => acc ++ [y])) acc
        = (l.mapM f).map (fun out => acc ++ out) := by
  induction l with
  | nil =>
    intro acc
    rw [List.foldlM_nil, List.mapM_nil]
    simp
  | cons x xs ih =>
    intro acc
    rw [List.foldlM_cons, List.mapM_cons]
    cases hx : f x with
    | none => simp [hx]
    | some y =>
      simp only [hx, Option.map_some', Option.bind_eq_bind, Option.some_bind]
      rw [ih (acc ++ [y])]
      cases hxs : xs.mapM f with
      | none => simp
      | some out => simp

theorem mapM_loop_eq {α β : Type} (f : α → Option β) (xs : List α) :
    List.mapM.loop f xs [] = xs.mapM f := rfl

theorem mapM_eq_some_mem {α β : Type} (f : α → Option β) (l : List α) (out : List β)
    (h : l.mapM f = some out) : ∀ r ∈ out, ∃ x ∈ l, f x = some r := by
  induction l generalizing out with
  | nil =>
    rw [List.mapM_nil] at h
    cases h
    intro r hr
    simp at hr
  | cons x xs ih =>
    rw [List.mapM_cons] at h
    simp only [Option.bind_eq_bind, Option.bind_eq_some] at h
    obtain ⟨y, hx, out2, hxs, h⟩ := h
    cases h
    intro r hr
    cases hr with
    | head => exact ⟨x, List.mem_cons_self x xs, hx⟩
    | tail _ hr2 =>
      obtain ⟨z, hz, hfz⟩ := ih out2 hxs r hr2
      exact ⟨z, List.mem_cons_of_mem x hz, hfz⟩

theorem mapM_option_append {α β : Type} (f : α → Option β) (l1 l2 : List α) :
    (l1 ++ l2).mapM f
      = (l1.mapM f).bind (fun a => (l2.mapM f).map (fun b => a ++ b)) := by
  induction l1 with
  | nil =>
    rw [List.nil_append, List.mapM_nil]
    cases h2 : l2.mapM f <;> simp [h2]
  | cons x xs ih =>
    rw [List.cons_append, List.mapM_cons, List.mapM_cons]
    cases hx : f x with
    | none => simp [hx]
    | some y =>
      simp only [hx, Option.bind_eq_bind, Option.some_bind]
      rw [ih]
      cases hxs : xs.mapM f with
      | none => simp [hxs]
      | some a =>
        cases h2 : l2.mapM f <;> simp [hxs, h2, List.cons_append]

theorem foldlM_skip_eq_filter {α : Type} (p : α → Bool) (f : Row → α → Option Row)
    (l : List α) : ∀ acc : Row,
      l.foldlM (fun a x => if p x then pure a else f a x) acc
        = (l.filter (fun x => !p x)).foldlM f acc := by
  induction l with
  | nil => intro acc; rfl
  | cons x xs ih =>
    intro acc
    rw [List.foldlM_cons, List.filter_cons]
    cases hp : p x with
    | true =>
      simp only [hp, if_pos rfl, Bool.not_true, pure_bind]
      simp only [Bool.false_eq_true, if_false]
      exact ih acc
    | false =>
      simp only [hp, Bool.not_false, if_true, List.foldlM_cons]
      simp only [Bool.false_eq_true, if_false]
      cases hf : f acc x with
      | none => simp [hf]
      | some v =>
        simp only [hf, Option.bind_eq_bind, Option.some_bind]
        exact ih v

/-- Substituting a key whose placeholders do not occur leaves the template
unchanged and cannot raise. -/
theorem substKey_id (key : String) (v : Val) (s : List Char)
    (hf : hasPat (fmtPat key) s = false) (hp : hasPat (plainPat key) s = false) :
    substKey key v s = some s := by
  simp [substKey, hf, hp]

/-- Substituting a key whose formatted placeholder occurs but whose value
is not `int`-convertible raises. -/
theorem substKey_none (key : String) (v : Val) (s : List Char)
    (hf : hasPat (fmtPat key) s = true) (hv : pyInt v = none) :
    substKey key v s = none := by
  simp [substKey, hf, hv]

/-- Totality of the value ordering used when sorting cycles. -/
theorem charListLe_total : ∀ a b : List Char, charListLe a b = true ∨ charListLe b a = true := by
  intro a
  induction a with
  | nil => intro b; left; simp [charListLe]
  | cons x xs ih =>
    intro b
    cases b with
    | nil => right; simp [charListLe]
    | cons y ys =>
      by_cases h1 : x.toNat < y.toNat
      · left; simp [charListLe, h1]
      · by_cases h2 : y.toNat < x.toNat
        · right; simp [charListLe, h2]
        · have := ih ys
          simp only [charListLe, h1, h2, if_neg, if_false]
          simpa [h1, h2] using this

theorem valLe_total : ∀ a b : Val, valLe a b = true ∨ valLe b a = true := by
  intro a b
  cases a with
  | vStr sa =>
    cases b with
    | vStr sb => simpa [valLe] using charListLe_total sa.data sb.data
    | vInt nb => right; simp [valLe]
  | vInt na =>
    cases b with
    | vStr sb => left; simp [valLe]
    | vInt nb => simpa [valLe] using Int.le_total na nb

/-- Inserting into a list that is `le`-chained keeps it chained, given
totality of `le`. -/
theorem chain'_insertBy {α : Type} (le : α → α → Bool)
    (htot : ∀ a b : α, le a b = true ∨ le b a = true) (x : α) :
    ∀ l : List α, List.Chain' (fun a b => le a b = true) l →
      List.Chain' (fun a b => le a b = true) (insertBy le x l) := by
  intro l
  induction l with
  | nil => intro _; simp [insertBy]
  | cons y ys ih =>
    intro h
    rw [insertBy]
    cases hxy : le x y with
    | true =>
      simp only [if_pos rfl]
      exact List.Chain'.cons hxy h
    | false =>
      simp only [Bool.false_eq_true, if_false]
      have hyx : le y x = true := by
        cases htot x y with
        | inl h1 => rw [h1] at hxy; cases hxy
        | inr h2 => exact h2
      have hys : List.Chain' (fun a b => le a b = true) ys := h.tail
      have hins := ih hys
      cases ys with
      | nil => simpa [insertBy] using hyx
      | cons z zs =>
        rw [insertBy]
        cases hxz : le x z with
        | true =>
          simp only [if_pos rfl]
          exact List.Chain'.cons hyx (List.Chain'.cons hxz hys)
        | false =>
          simp only [Bool.false_eq_true, if_false]
          have hyz : le y z = true := (List.chain'_cons.mp h).1
          rw [insertBy] at hins
          rw [hxz] at hins
          simp only [Bool.false_eq_true, if_false] at hins
          exact List.Chain'.cons hyz hins

/-- Insertion sort produces an adjacently `le`-sorted list for any total
`le`; in particular the wide-format cycle list is ascending. -/
theorem chain'_sortBy {α : Type} (le : α → α → Bool)
    (htot : ∀ a b : α, le a b = true ∨ le b a = true) (l : List α) :
    List.Chain' (fun a b => le a b = true) (sortBy le l) := by
  induction l with
  | nil => simp [sortBy]
  | cons x xs ih =>
    have : sortBy le (x :: xs) = insertBy le x (sortBy le xs) := rfl
    rw [this]
    exact chain'_insertBy le htot x (sortBy le xs) ih

/-!  Structural lemmas about the strategies. -/

theorem generateStandard_nil (e : String → List (String × Val) → Option Val)
    (spec : LoadDataSpec) (p : PipelineDefinition) (b : String) :
    generateStandard e spec p b [] = some [] := rfl

theorem generateWideFormat_nil (e : String → List (String × Val) → Option Val)
    (spec : LoadDataSpec) (p : PipelineDefinition) (b : String) :
    generateWideFormat e spec p b [] = some [] := rfl

theorem generatePipeline9_nil (e : String → List (String × Val) → Option Val)
    (p : PipelineDefinition) (b : String) :
    generatePipeline9 e p b [] = some [] := rfl

/-- The standard strategy is the ordered traversal of the filtered rows by
the single-row generator. -/
theorem generateStandard_eq_mapM (e : String → List (String × Val) → Option Val)
    (spec : LoadDataSpec) (p : PipelineDefinition) (b : String) (fil : List SampleRow) :
    generateStandard e spec p b fil = fil.mapM (generateStandardRow e spec p b) := by
  unfold generateStandard
  rw [foldlM_append_eq_mapM]
  cases h : fil.mapM (generateStandardRow e spec p b) <;> simp [h]

/-- The wide-format strategy is the traversal of the sorted distinct
`(well, site)` group keys by the single-group row generator. -/
theorem generateWideFormat_eq_mapM (e : String → List (String × Val) → Option Val)
    (spec : LoadDataSpec) (p : PipelineDefinition) (b : String) (fil : List SampleRow) :
    generateWideFormat e spec p b fil
      = (fil.mapM groupKeyOf).bind
          (fun keys => (sortBy valPairLe (dedup keys)).mapM (wideRowFor e spec p b fil)) := by
  unfold generateWideFormat
  cases hk : fil.mapM groupKeyOf with
  | none => simp [hk]
  | some keys =>
    simp only [hk, Option.bind_eq_bind, Option.some_bind]
    rw [foldlM_append_eq_mapM]
    cases h : (sortBy valPairLe (dedup keys)).mapM (wideRowFor e spec p b fil) <;> simp [h]

/-- Decomposition of one standard-strategy row when the column group is
split into orig and illum sub-groups: the row is the metadata cells, then
the full orig pass, then the full illum pass. -/
theorem generateStandardRow_split (e : String → List (String × Val) → Option Val)
    (spec : LoadDataSpec) (p : PipelineDefinition) (b : String) (row : SampleRow)
    (og ig : PerChannelColumns) (r : Row)
    (hog : p.columns.per_channel_orig = some og)
    (hig : p.columns.per_channel_illum = some ig)
    (hrun : generateStandardRow e spec p b row = some r) :
    ∃ m channels o i,
      emitColumns e p.columns.metadata row (stdTemplateVars b row) = some m ∧
      getChannels spec og.channels = some channels ∧
      stdChannelPass e channels (resolveChannelIndex (rowChannels row channels) channels)
        og.columns row (stdTemplateVars b row) = some o ∧
      stdChannelPass e channels (fun _ => some 0) ig.columns row (stdTemplateVars b row) = some i ∧
      r = m ++ o ++ i := by
  unfold generateStandardRow at hrun
  rw [hog, hig] at hrun
  simp only [Option.bind_eq_bind, Option.bind_eq_some] at hrun
  obtain ⟨m, hm, channels, hch, o, ho, i, hi, hr⟩ := hrun
  cases hr
  exact ⟨m, channels, o, i, hm, hch, ho, hi, rfl⟩

/-- Decomposition of one wide-format row when the column group is split
into orig and illum sub-groups: metadata cells, then the full orig pass
over all cycles, then the full illum pass over all cycles. -/
theorem wideRowFor_split (e : String → List (String × Val) → Option Val)
    (spec : LoadDataSpec) (p : PipelineDefinition) (b : String) (fil : List SampleRow)
    (key : Val × Val) (og ig : PerCyclePerChannelColumns) (r : Row)
    (hog : p.columns.per_cycle_per_channel_orig = some og)
    (hig : p.columns.per_cycle_per_channel_illum = some ig)
    (hrun : wideRowFor e spec p b fil key = some r) :
    ∃ first plate cyclesRaw m channels o i,
      (fil.filter (fun rr => groupKeyOf rr = some key)).head? = some first ∧
      assocFind first "plate" = some plate ∧
      (fil.filter (fun rr => groupKeyOf rr = some key)).mapM
        (fun rr => assocFind rr "cycle") = some cyclesRaw ∧
      emitColumns e p.columns.metadata first
        [("base_path", Val.vStr b), ("plate", plate), ("well", key.1), ("site", key.2)] = some m ∧
      getChannels spec og.channels = some channels ∧
      wideCyclePass e channels true og.columns
        (fil.filter (fun rr => groupKeyOf rr = some key))
        (sortBy valLe (dedup cyclesRaw))
        [("base_path", Val.vStr b), ("plate", plate), ("well", key.1), ("site", key.2)] = some o ∧
      wideCyclePass e channels false ig.columns
        (fil.filter (fun rr => groupKeyOf rr = some key))
        (sortBy valLe (dedup cyclesRaw))
        [("base_path", Val.vStr b), ("plate", plate), ("well", key.1), ("site", key.2)] = some i ∧
      r = m ++ o ++ i := by
  unfold wideRowFor at hrun
  rw [hog, hig] at hrun
  simp only [Option.bind_eq_bind, Option.bind_eq_some] at hrun
  obtain ⟨first, hfst, plate, hpl, cyclesRaw, hcy, m, hm, channels, hch, o, ho, i, hi, hr⟩ := hrun
  cases hr
  exact ⟨first, plate, cyclesRaw, m, channels, o, i, hfst, hpl, hcy, hm, hch, ho, hi, rfl⟩

/-- The combined wide-format channel loop with special rules is the plain
channel pass over exactly the channels the rules admit at that cycle. -/
theorem combinedChannelPass_eq_filter (e : String → List (String × Val) → Option Val)
    (channels : List String) (rules : List (String × SpecialRule)) (cy : Val)
    (ssCh : List String) (cols : List ColumnDefinition) (row : SampleRow)
    (cvars : List (String × Val)) :
    combinedChannelPass e channels rules cy ssCh cols row cvars
      = stdChannelPass e (channels.filter (fun ch => !skipChannel rules ch cy))
          (resolveChannelIndex ssCh channels) cols row cvars := by
  unfold combinedChannelPass stdChannelPass
  rw [foldlM_skip_eq_filter]

/-!  Concrete fixtures used to instantiate the claims: a two-channel
barcoding channel set, a three-cycle samplesheet for one well and site,
and small pipelines of each shape. -/

/-- An expression oracle that always fails (no `expression` columns are
exercised unless a claim needs the failure path). -/
def evalNone : String → List (String × Val) → Option Val := fun _ _ => none

/-- A query oracle matching every row. -/
def queryTrue : String → SampleRow → Bool := fun _ _ => true

/-- One samplesheet row of well A1, site 1 at a given cycle and path. -/
def fxRow (cy : Int) (p : String) : SampleRow :=
  [("path", Val.vStr p), ("arm", Val.vStr "bc"), ("batch", Val.vStr "B1"),
   ("plate", Val.vStr "P1"), ("well", Val.vStr "A1"), ("channels", Val.vStr "DNA,A"),
   ("site", Val.vInt 1), ("cycle", Val.vInt cy), ("n_frames", Val.vInt 2)]

/-- Two cycles of one physical site. -/
def fxSamplesTwo : List SampleRow := [fxRow 1 "c1/f1.tif", fxRow 2 "c2/f2.tif"]

/-- Three cycles of one physical site. -/
def fxSamplesThree : List SampleRow :=
  [fxRow 1 "c1/f1.tif", fxRow 2 "c2/f2.tif", fxRow 3 "c3/f3.tif"]

/-- A metadata column reading the `well` field. -/
def fxMetaCol : ColumnDefinition := { name := "Metadata_Well", source := some "well" }

/-- A per-cycle-per-channel file-name column. -/
def fxFcCol : ColumnDefinition :=
  { name := "FileName_Cycle\x7bcycle:02d\x7d_\x7bchannel\x7d",
    pattern := some "\x7bfilename\x7d" }

/-- The orig variant of the per-cycle-per-channel column. -/
def fxOrigCol : ColumnDefinition :=
  { name := "FileName_Cycle\x7bcycle:02d\x7d_Orig\x7bchannel\x7d",
    pattern := some "\x7bfilename\x7d" }

/-- The illum variant of the per-cycle-per-channel column. -/
def fxIllumCol : ColumnDefinition :=
  { name := "FileName_Cycle\x7bcycle:02d\x7d_Illum\x7bchannel\x7d",
    pattern := some "illum_\x7bchannel\x7d" }

/-- A special rule restricting the DNA channel to cycle 1. -/
def fxDnaRule : List (String × SpecialRule) :=
  [("DNA", { only_cycle := some (Val.vInt 1) })]

/-- A combined-shape wide-format pipeline, with both capability flags set
(used to exhibit the id-dependence of the dispatch). -/
def fxWidePipe : PipelineDefinition :=
  { name := "wf", filter := "", grouping := [],
    columns := { metadata := [fxMetaCol],
                 per_cycle_per_channel := some { channels := "bc", columns := [fxFcCol] } },
    wide_format := true,
    synthetic_tiles := true }

/-- A spec registering the same wide-format pipeline under ids 5 and 6. -/
def fxDualSpec : LoadDataSpec :=
  { metadata := { description := "d", version := "v", base_path := "bp" },
    channel_definitions := [("bc", ["DNA", "A"])],
    pipelines := [("5", fxWidePipe), ("6", fxWidePipe)] }

/-- A split-shape wide-format pipeline whose orig sub-group carries the
DNA-only-at-cycle-1 special rule. -/
def fxSplitPipe : PipelineDefinition :=
  { name := "split", filter := "", grouping := [],
    columns := { metadata := [fxMetaCol],
                 per_cycle_per_channel_orig :=
                   some { channels := "bc", columns := [fxOrigCol], special_rules := fxDnaRule },
                 per_cycle_per_channel_illum :=
                   some { channels := "bc", columns := [fxIllumCol] } },
    wide_format := true }

/-- A combined-shape wide-format pipeline carrying the same special rule. -/
def fxCombPipe : PipelineDefinition :=
  { name := "comb", filter := "", grouping := [],
    columns := { metadata := [fxMetaCol],
                 per_cycle_per_channel :=
                   some { channels := "bc", columns := [fxFcCol], special_rules := fxDnaRule } },
    wide_format := true }

/-- The orig sub-group of the standard fixture pipeline. -/
def fxStdOrigGrp : PerChannelColumns :=
  { channels := "bc",
    columns := [{ name := "FileName_Orig\x7bchannel\x7d",
                  pattern := some "\x7bfilename\x7d" }] }

/-- The illum sub-group of the standard fixture pipeline. -/
def fxStdIllumGrp : PerChannelColumns :=
  { channels := "bc",
    columns := [{ name := "FileName_Illum\x7bchannel\x7d",
                  pattern := some "illum\x7bchannel\x7d" }] }

/-- A standard pipeline with separated per-channel orig and illum
sub-groups. -/
def fxStdPipe : PipelineDefinition :=
  { name := "std", filter := "arm == 'bc'", grouping := [],
    columns := { metadata := [fxMetaCol],
                 per_channel_orig := some fxStdOrigGrp,
                 per_channel_illum := some fxStdIllumGrp } }

/-- A spec holding the split, combined and standard fixture pipelines. -/
def fxSpec : LoadDataSpec :=
  { metadata := { description := "d", version := "v", base_path := "bp" },
    channel_definitions := [("bc", ["DNA", "A"])],
    pipelines := [("6", fxSplitPipe), ("7", fxCombPipe), ("1", fxStdPipe)] }

/-- The column names of the first generated row, used to state concrete
presence and absence facts. -/
def firstRowKeys (o : Option (List Row)) : List String :=
  ((o.getD []).headD []).map Prod.fst

/-- A column definition with two resolution modes set (`source` and
`pattern`). -/
def fxMultiCol : ColumnDefinition :=
  { name := "Metadata_Plate", source := some "plate", pattern := some "x" }

/-- A column definition with an empty-string `pattern` and a set `value`. -/
def fxPVCol : ColumnDefinition :=
  { name := "X", pattern := some "", value := some (Val.vStr "x") }

/-- A samplesheet row with no `cycle` field (as cell-painting arms have),
so the derived scope maps `cycle` to the empty string. -/
def fxRowNoCycle : SampleRow :=
  [("path", Val.vStr "a/b.tif"), ("plate", Val.vStr "P1"), ("well", Val.vStr "A1"),
   ("site", Val.vInt 0), ("channels", Val.vStr "DNA")]

/-!  The claims. -/

/-- Claim C1, counterexample: one pipeline definition with both
`synthetic_tiles` and `wide_format` set, registered unchanged under the
ids 5 and 6, generates two rows (one per sample row: the Standard
strategy) under id 5 but one fused row (the Wide-Format strategy) under
id 6 — so the strategy choice depends on the pipeline id string, and a set
`synthetic_tiles` flag does not select the Synthetic-Tile strategy. -/
theorem c1_counterexample :
    fxWidePipe.synthetic_tiles = true ∧
    fxWidePipe.wide_format = true ∧
    getPipeline fxDualSpec "5" = some fxWidePipe ∧
    getPipeline fxDualSpec "6" = some fxWidePipe ∧
    Option.map List.length (generatePipeline evalNone queryTrue fxDualSpec "5" fxSamplesTwo none)
      = some 2 ∧
    Option.map List.length (generatePipeline evalNone queryTrue fxDualSpec "6" fxSamplesTwo none)
      = some 1 := by
  exact ⟨rfl, rfl, rfl, rfl, by decide, by decide⟩

/-- Claim C1, amended: `generate_pipeline` dispatches on the flag AND the
id — the Wide-Format strategy exactly when `wide_format` is truthy and the
id is "6" or "7", otherwise the Synthetic-Tile strategy exactly when the
id is "9" (the `synthetic_tiles` flag is not consulted), otherwise the
Standard strategy. -/
theorem c1_dispatch_amended (e : String → List (String × Val) → Option Val)
    (q : String → SampleRow → Bool) (spec : LoadDataSpec) (id : String)
    (samples : List SampleRow) (bp : Option String) (pipeline : PipelineDefinition)
    (h : getPipeline spec id = some pipeline) :
    generatePipeline e q spec id samples bp
      = (if pipeline.wide_format && (id == "6" || id == "7") then
           generateWideFormat e spec pipeline (resolveBasePath bp spec)
             (filterSamples q pipeline samples)
         else if id == "9" then
           generatePipeline9 e pipeline (resolveBasePath bp spec)
             (filterSamples q pipeline samples)
         else
           generateStandard e spec pipeline (resolveBasePath bp spec)
             (filterSamples q pipeline samples)) := by
  simp only [generatePipeline, h, Option.bind_eq_bind, Option.some_bind]

/-- Claim C1, witness for the amended dispatch theorem at a concrete
pipeline and id. -/
theorem c1_witness :
    generatePipeline evalNone queryTrue fxDualSpec "5" fxSamplesTwo none
      = (if fxWidePipe.wide_format && (("5" : String) == "6" || ("5" : String) == "7") then
           generateWideFormat evalNone fxDualSpec fxWidePipe (resolveBasePath none fxDualSpec)
             (filterSamples queryTrue fxWidePipe fxSamplesTwo)
         else if ("5" : String) == "9" then
           generatePipeline9 evalNone fxWidePipe (resolveBasePath none fxDualSpec)
             (filterSamples queryTrue fxWidePipe fxSamplesTwo)
         else
           generateStandard evalNone fxDualSpec fxWidePipe (resolveBasePath none fxDualSpec)
             (filterSamples queryTrue fxWidePipe fxSamplesTwo)) :=
  c1_dispatch_amended evalNone queryTrue fxDualSpec "5" fxSamplesTwo none fxWidePipe rfl

/-- Claim C2, counterexample: a `ColumnDefinition` with two resolution
modes set (`source` and `pattern`) passes load-time validation, so loading
does not fail on multiple modes. -/
theorem c2_counterexample :
    fxMultiCol.source.isSome = true ∧
    fxMultiCol.pattern.isSome = true ∧
    columnDefValid fxMultiCol = true := by
  decide

/-- Claim C2, amended: load-time validation of a `ColumnDefinition`
accepts exactly the definitions with a nonempty name and at least one
resolution mode set; zero modes is fatal, multiple modes are accepted. -/
theorem c2_validation_amended (c : ColumnDefinition) :
    columnDefValid c = true ↔
      (c.name ≠ "" ∧
        (c.source ≠ none ∨ c.pattern ≠ none ∨ c.value ≠ none ∨ c.expression ≠ none)) := by
  cases c with
  | mk name source pattern value expression =>
    cases source <;> cases pattern <;> cases value <;> cases expression <;>
      simp [columnDefValid]

/-- Claim C9, counterexample: a definition with `pattern` set to the empty
string and `value` set resolves through `value`, not `pattern` — the
pattern-over-value priority only holds for truthy (nonempty) patterns. -/
theorem c9_counterexample :
    fxPVCol.pattern.isSome = true ∧
    fxPVCol.value.isSome = true ∧
    generateColumnValue evalNone fxPVCol [] [] = some (Val.vStr "x") ∧
    patternResolve "" [] = some (Val.vStr "") ∧
    Val.vStr "x" ≠ Val.vStr "" := by
  decide

/-- Claim C9, amended: resolution priority is by Python truthiness — a
nonempty `source` wins, else a nonempty `pattern`, else any set `value`
(even an empty or zero one), else a nonempty `expression`, and with
everything falsy or unset the cell is the empty string. -/
theorem c9_priority_amended :
    (∀ (e : String → List (String × Val) → Option Val) (c : ColumnDefinition)
        (row : SampleRow) (tv : List (String × Val)),
        truthyOptStr c.source = true →
        generateColumnValue e c row tv = some (sourceResolve (c.source.getD "") row tv)) ∧
    (∀ (e : String → List (String × Val) → Option Val) (c : ColumnDefinition)
        (row : SampleRow) (tv : List (String × Val)),
        truthyOptStr c.source = false → truthyOptStr c.pattern = true →
        generateColumnValue e c row tv = patternResolve (c.pattern.getD "") tv) ∧
    (∀ (e : String → List (String × Val) → Option Val) (c : ColumnDefinition)
        (row : SampleRow) (tv : List (String × Val)),
        truthyOptStr c.source = false → truthyOptStr c.pattern = false →
        c.value.isSome = true →
        generateColumnValue e c row tv = some (valueResolve (c.value.getD (Val.vStr "")) tv)) ∧
    (∀ (e : String → List (String × Val) → Option Val) (c : ColumnDefinition)
        (row : SampleRow) (tv : List (String × Val)),
        truthyOptStr c.source = false → truthyOptStr c.pattern = false →
        c.value = none → truthyOptStr c.expression = true →
        generateColumnValue e c row tv
          = some (exprResolve e (c.expression.getD "") row tv)) ∧
    (∀ (e : String → List (String × Val) → Option Val) (c : ColumnDefinition)
        (row : SampleRow) (tv : List (String × Val)),
        truthyOptStr c.source = false → truthyOptStr c.pattern = false →
        c.value = none → truthyOptStr c.expression = false →
        generateColumnValue e c row tv = some (Val.vStr "")) := by
  refine ⟨?_, ?_, ?_, ?_, ?_⟩
  · intro e c row tv hs
    simp [generateColumnValue, hs]
  · intro e c row tv hs hp
    simp [generateColumnValue, hs, hp]
  · intro e c row tv hs hp hv
    simp [generateColumnValue, hs, hp, hv]
  · intro e c row tv hs hp hv he
    simp [generateColumnValue, hs, hp, hv, he]
  · intro e c row tv hs hp hv he
    simp [generateColumnValue, hs, hp, hv, he]

/-- Claim C9, witness: the amended priority theorem applied at the
empty-pattern, set-value definition, and its expression clause applied at
an expression-only definition under an oracle that succeeds. -/
theorem c9_witness :
    generateColumnValue evalNone fxPVCol [] []
      = some (valueResolve (fxPVCol.value.getD (Val.vStr "")) []) ∧
    generateColumnValue (fun _ _ => some (Val.vInt 7))
      { name := "Metadata_Row", expression := some "ord(well)" } [] []
      = some (exprResolve (fun _ _ => some (Val.vInt 7)) "ord(well)" [] []) :=
  ⟨c9_priority_amended.2.2.1 evalNone fxPVCol [] [] (by decide) (by decide) (by decide),
   c9_priority_amended.2.2.2.1 (fun _ _ => some (Val.vInt 7))
     { name := "Metadata_Row", expression := some "ord(well)" } [] []
     (by decide) (by decide) (by decide) (by decide)⟩

/-- Claim C4: the channel index is the exact-match position in the row's
own comma-joined channel list when present, else the position in the
canonical list; with canonical DNA,A,C,T,G and row channels A,DNA,T the
resolver yields 1 for DNA (row order) and 4 for G (canonical fallback). -/
theorem c4_channel_index :
    (∀ (ch : String) (rowL canon : List String) (i : Nat),
        listIndex ch rowL = some i → resolveChannelIndex rowL canon ch = some i) ∧
    (∀ (ch : String) (rowL canon : List String),
        listIndex ch rowL = none → resolveChannelIndex rowL canon ch = listIndex ch canon) ∧
    resolveChannelIndex (splitChannels "A,DNA,T") ["DNA", "A", "C", "T", "G"] "DNA" = some 1 ∧
    resolveChannelIndex (splitChannels "A,DNA,T") ["DNA", "A", "C", "T", "G"] "G" = some 4 := by
  refine ⟨?_, ?_, by decide, by decide⟩
  · intro ch rowL canon i h
    unfold resolveChannelIndex
    rw [h]
  · intro ch rowL canon h
    unfold resolveChannelIndex
    rw [h]

/-- Claim C4, witness: the general resolution clauses applied at the
spec's own example. -/
theorem c4_witness :
    resolveChannelIndex ["A", "DNA", "T"] ["DNA", "A", "C", "T", "G"] "DNA" = some 1 ∧
    resolveChannelIndex ["A", "DNA", "T"] ["DNA", "A", "C", "T", "G"] "G"
      = listIndex "G" ["DNA", "A", "C", "T", "G"] :=
  ⟨c4_channel_index.1 "DNA" ["A", "DNA", "T"] ["DNA", "A", "C", "T", "G"] 1 (by decide),
   c4_channel_index.2.1 "G" ["A", "DNA", "T"] ["DNA", "A", "C", "T", "G"] (by decide)⟩

/-- Claim C6: template expansion substitutes the formatted placeholder
(zero-padded to two digits, longer values untruncated) before the plain
one, leaves unknown placeholders unexpanded without error, and behaves
identically for column names and pattern-mode values. -/
theorem c6_template_expansion :
    expandColumnName "Cycle\x7bcycle:02d\x7d_\x7bchannel\x7d"
      [("cycle", Val.vInt 3), ("channel", Val.vStr "DNA")] = some "Cycle03_DNA" ∧
    expandColumnName "\x7bcycle:02d\x7d" [("cycle", Val.vInt 12)] = some "12" ∧
    expandColumnName "\x7bcycle:02d\x7d" [("cycle", Val.vInt 123)] = some "123" ∧
    expandColumnName "\x7bplate\x7d_\x7bunknownvar\x7d" [("plate", Val.vStr "P1")]
      = some "P1_\x7bunknownvar\x7d" ∧
    (∀ (tmpl : String) (scope : List (String × Val)),
        (∀ kv ∈ scope, hasPat (fmtPat kv.1) tmpl.data = false ∧
                       hasPat (plainPat kv.1) tmpl.data = false) →
        expandTemplate tmpl scope = some tmpl) ∧
    generateColumnValue evalNone
      { name := "N", pattern := some "Cycle\x7bcycle:02d\x7d_\x7bchannel\x7d" } []
      [("cycle", Val.vInt 3), ("channel", Val.vStr "DNA")]
      = some (Val.vStr "Cycle03_DNA") := by
  refine ⟨by decide, by decide, by decide, by decide, ?_, by decide⟩
  intro tmpl scope h
  unfold expandTemplate
  have hs : scope.foldlM (fun acc kv => substKey kv.1 kv.2 acc) tmpl.data
      = some tmpl.data := by
    induction scope with
    | nil => rfl
    | cons kv rest ih =>
      rw [List.foldlM_cons]
      rw [substKey_id kv.1 kv.2 tmpl.data (h kv (List.mem_cons_self kv rest)).1
            (h kv (List.mem_cons_self kv rest)).2]
      have := ih (fun kv2 h2 => h kv2 (List.mem_cons_of_mem kv h2))
      simpa using this
  rw [hs]
  rfl

/-- Claim C6, witness: the unknown-variable clause applied at a template
containing none of the scope's placeholders. -/
theorem c6_witness :
    expandTemplate "Metadata_Well" [("plate", Val.vStr "P1")] = some "Metadata_Well" :=
  c6_template_expansion.2.2.2.2.1 "Metadata_Well" [("plate", Val.vStr "P1")] (by decide)

/-- Claim C10: expansion is not total — a formatted placeholder whose
scope value is not `int`-convertible raises, both for column names (shown
on the standard scope of a row with no `cycle` field, where `cycle` maps
to the empty string) and for pattern-mode values. -/
theorem c10_formatted_nonint :
    (∀ (k : String) (v : Val) (rest : List (String × Val)) (t : String),
        hasPat (fmtPat k) t.data = true → pyInt v = none →
        expandTemplate t ((k, v) :: rest) = none) ∧
    expandColumnName "Cycle\x7bcycle:02d\x7d_\x7bchannel\x7d"
      (stdTemplateVars "bp" fxRowNoCycle) = none ∧
    generateColumnValue evalNone
      { name := "N", pattern := some "Cycle\x7bcycle:02d\x7d_x" } []
      [("cycle", Val.vStr "")] = none := by
  refine ⟨?_, by decide, by decide⟩
  intro k v rest t hf hv
  unfold expandTemplate
  rw [List.foldlM_cons, substKey_none k v t.data hf hv]
  rfl

/-- Claim C10, witness: the general clause applied at a bare formatted
placeholder with the empty string as the scope value. -/
theorem c10_witness :
    expandTemplate "\x7bcycle:02d\x7d" [("cycle", Val.vStr "")] = none :=
  c10_formatted_nonint.1 "cycle" (Val.vStr "") [] "\x7bcycle:02d\x7d" (by decide) (by decide)

/-- Resolution of an expression-mode definition whose evaluation fails:
the cell is the empty string and no exception escapes. -/
theorem generateColumnValue_expr_fail (e : String → List (String × Val) → Option Val)
    (c : ColumnDefinition) (row : SampleRow) (tv : List (String × Val))
    (hs : truthyOptStr c.source = false) (hp : truthyOptStr c.pattern = false)
    (hv : c.value = none) (he : truthyOptStr c.expression = true)
    (hev : e (c.expression.getD "") (mergeVars row tv) = none) :
    generateColumnValue e c row tv = some (Val.vStr "") := by
  simp only [generateColumnValue, hs, hp, hv, he, Option.isSome_none,
    Bool.false_eq_true, if_false, if_true, exprResolve, hev]

/-- Claim C7: a failing expression resolves to the empty-string cell
without raising, and a row emission containing such a column still emits
every other cell — one bad expression never aborts row generation. -/
theorem c7_expression_failure :
    (∀ (e : String → List (String × Val) → Option Val) (c : ColumnDefinition)
        (row : SampleRow) (tv : List (String × Val)),
        truthyOptStr c.source = false → truthyOptStr c.pattern = false →
        c.value = none → truthyOptStr c.expression = true →
        e (c.expression.getD "") (mergeVars row tv) = none →
        generateColumnValue e c row tv = some (Val.vStr "")) ∧
    (∀ (e : String → List (String × Val) → Option Val) (pre post : List ColumnDefinition)
        (c : ColumnDefinition) (row : SampleRow) (tv : List (String × Val)) (n : String),
        truthyOptStr c.source = false → truthyOptStr c.pattern = false →
        c.value = none → truthyOptStr c.expression = true →
        e (c.expression.getD "") (mergeVars row tv) = none →
        expandColumnName c.name tv = some n →
        emitColumns e (pre ++ c :: post) row tv
          = (emitColumns e pre row tv).bind (fun a =>
              (emitColumns e post row tv).map (fun bl => a ++ (n, Val.vStr "") :: bl))) := by
  constructor
  · intro e c row tv hs hp hv he hev
    exact generateColumnValue_expr_fail e c row tv hs hp hv he hev
  · intro e pre post c row tv n hs hp hv he hev hname
    unfold emitColumns
    rw [mapM_option_append]
    rw [List.mapM_cons]
    rw [hname, generateColumnValue_expr_fail e c row tv hs hp hv he hev]
    simp only [Option.bind_eq_bind, Option.some_bind, pure_bind]
    cases hpre : pre.mapM (fun cd => do
        let nn ← expandColumnName cd.name tv
        let vv ← generateColumnValue e cd row tv
        pure (nn, vv)) with
    | none => rfl
    | some a =>
      cases hpost : post.mapM (fun cd => do
          let nn ← expandColumnName cd.name tv
          let vv ← generateColumnValue e cd row tv
          pure (nn, vv)) with
      | none => simp [hpost]
      | some bl => simp [hpost]

/-- Claim C7, witness: the failure clause applied at a concrete
expression-mode definition under the always-failing oracle. -/
theorem c7_witness :
    generateColumnValue evalNone
      { name := "Metadata_Row", expression := some "bad" } [] []
      = some (Val.vStr "") :=
  c7_expression_failure.1 evalNone
    { name := "Metadata_Row", expression := some "bad" } [] []
    (by decide) (by decide) (by decide) (by decide) (by decide)

/-- Claim C8: for every pipeline id present in the specification, an empty
post-filter sample table yields the empty output table with no exception,
whichever strategy the dispatch selects. -/
theorem c8_empty_filter (e : String → List (String × Val) → Option Val)
    (q : String → SampleRow → Bool) (spec : LoadDataSpec) (id : String)
    (samples : List SampleRow) (bp : Option String) (pipeline : PipelineDefinition)
    (h : getPipeline spec id = some pipeline)
    (hfil : filterSamples q pipeline samples = []) :
    generatePipeline e q spec id samples bp = some [] := by
  simp only [generatePipeline, h, Option.bind_eq_bind, Option.some_bind, hfil,
    generateWideFormat_nil, generatePipeline9_nil, generateStandard_nil, ite_self]

/-- Claim C8, witness: a filter matching no rows at a concrete pipeline
and samplesheet produces the empty table. -/
theorem c8_witness :
    filterSamples (fun _ _ => false) fxStdPipe fxSamplesTwo = [] ∧
    generatePipeline evalNone (fun _ _ => false) fxSpec "1" fxSamplesTwo none = some [] :=
  ⟨by decide,
   c8_empty_filter evalNone (fun _ _ => false) fxSpec "1" fxSamplesTwo none fxStdPipe
     rfl (by decide)⟩

/-- Claim C3, counterexample: a wide-format column group of the split
orig/illum shape carrying the rule "DNA only at cycle 1" still produces
`FileName_Cycle02_OrigDNA` and `FileName_Cycle03_OrigDNA` columns — the
special rules are consulted only in the combined group shape, so the
omission does not hold for every wide-format column-group shape. -/
theorem c3_counterexample :
    (fxSplitPipe.columns.per_cycle_per_channel_orig.map (fun g => g.special_rules))
      = some fxDnaRule ∧
    Option.map List.length (generateWideFormat evalNone fxSpec fxSplitPipe "bp" fxSamplesThree)
      = some 1 ∧
    "FileName_Cycle02_OrigDNA"
      ∈ firstRowKeys (generateWideFormat evalNone fxSpec fxSplitPipe "bp" fxSamplesThree) ∧
    "FileName_Cycle03_OrigDNA"
      ∈ firstRowKeys (generateWideFormat evalNone fxSpec fxSplitPipe "bp" fxSamplesThree) := by
  decide

/-- Claim C3, amended: in the combined per-cycle-per-channel shape the
channel loop is exactly the plain channel pass over the channels the
special rules admit at that cycle, so a channel restricted to cycle 1 is
entirely omitted (no column at all) at cycles 2 and 3 while unrestricted
channels appear at every cycle; in the split orig/illum shape special
rules are ignored. -/
theorem c3_sparsity_amended :
    (∀ (e : String → List (String × Val) → Option Val) (channels : List String)
        (rules : List (String × SpecialRule)) (cy : Val) (ssCh : List String)
        (cols : List ColumnDefinition) (row : SampleRow) (cvars : List (String × Val)),
        combinedChannelPass e channels rules cy ssCh cols row cvars
          = stdChannelPass e (channels.filter (fun ch => !skipChannel rules ch cy))
              (resolveChannelIndex ssCh channels) cols row cvars) ∧
    skipChannel fxDnaRule "DNA" (Val.vInt 2) = true ∧
    skipChannel fxDnaRule "DNA" (Val.vInt 1) = false ∧
    Option.map List.length (generateWideFormat evalNone fxSpec fxCombPipe "bp" fxSamplesThree)
      = some 1 ∧
    "FileName_Cycle01_DNA"
      ∈ firstRowKeys (generateWideFormat evalNone fxSpec fxCombPipe "bp" fxSamplesThree) ∧
    "FileName_Cycle02_DNA"
      ∉ firstRowKeys (generateWideFormat evalNone fxSpec fxCombPipe "bp" fxSamplesThree) ∧
    "FileName_Cycle03_DNA"
      ∉ firstRowKeys (generateWideFormat evalNone fxSpec fxCombPipe "bp" fxSamplesThree) ∧
    "FileName_Cycle02_A"
      ∈ firstRowKeys (generateWideFormat evalNone fxSpec fxCombPipe "bp" fxSamplesThree) ∧
    "FileName_Cycle03_A"
      ∈ firstRowKeys (generateWideFormat evalNone fxSpec fxCombPipe "bp" fxSamplesThree) := by
  refine ⟨?_, by decide, by decide, by decide, by decide, by decide, by decide,
    by decide, by decide⟩
  intro e channels rules cy ssCh cols row cvars
  exact combinedChannelPass_eq_filter e channels rules cy ssCh cols row cvars

/-- Claim C5: when a column group is split into orig and illum sub-groups,
the standard strategy emits the metadata cells, then one full orig pass
over all channels, then one full illum pass; the wide-format strategy does
the same with each pass covering all cycles (the cycle list being sorted
ascending) before any illum column; concretely the orig column positions
precede every illum column position. -/
theorem c5_orig_before_illum :
    (∀ (e : String → List (String × Val) → Option Val) (spec : LoadDataSpec)
        (p : PipelineDefinition) (b : String) (fil : List SampleRow),
        generateStandard e spec p b fil = fil.mapM (generateStandardRow e spec p b)) ∧
    (∀ (e : String → List (String × Val) → Option Val) (spec : LoadDataSpec)
        (p : PipelineDefinition) (b : String) (row : SampleRow)
        (og ig : PerChannelColumns) (r : Row),
        p.columns.per_channel_orig = some og →
        p.columns.per_channel_illum = some ig →
        generateStandardRow e spec p b row = some r →
        ∃ m channels o i,
          emitColumns e p.columns.metadata row (stdTemplateVars b row) = some m ∧
          getChannels spec og.channels = some channels ∧
          stdChannelPass e channels (resolveChannelIndex (rowChannels row channels) channels)
            og.columns row (stdTemplateVars b row) = some o ∧
          stdChannelPass e channels (fun _ => some 0) ig.columns row (stdTemplateVars b row)
            = some i ∧
          r = m ++ o ++ i) ∧
    (∀ (e : String → List (String × Val) → Option Val) (spec : LoadDataSpec)
        (p : PipelineDefinition) (b : String) (fil : List SampleRow),
        generateWideFormat e spec p b fil
          = (fil.mapM groupKeyOf).bind
              (fun keys => (sortBy valPairLe (dedup keys)).mapM (wideRowFor e spec p b fil))) ∧
    (∀ (e : String → List (String × Val) → Option Val) (spec : LoadDataSpec)
        (p : PipelineDefinition) (b : String) (fil : List SampleRow) (key : Val × Val)
        (og ig : PerCyclePerChannelColumns) (r : Row),
        p.columns.per_cycle_per_channel_orig = some og →
        p.columns.per_cycle_per_channel_illum = some ig →
        wideRowFor e spec p b fil key = some r →
        ∃ first plate cyclesRaw m channels o i,
          (fil.filter (fun rr => groupKeyOf rr = some key)).head? = some first ∧
          assocFind first "plate" = some plate ∧
          (fil.filter (fun rr => groupKeyOf rr = some key)).mapM
            (fun rr => assocFind rr "cycle") = some cyclesRaw ∧
          emitColumns e p.columns.metadata first
            [("base_path", Val.vStr b), ("plate", plate), ("well", key.1), ("site", key.2)]
            = some m ∧
          getChannels spec og.channels = some channels ∧
          wideCyclePass e channels true og.columns
            (fil.filter (fun rr => groupKeyOf rr = some key))
            (sortBy valLe (dedup cyclesRaw))
            [("base_path", Val.vStr b), ("plate", plate), ("well", key.1), ("site", key.2)]
            = some o ∧
          wideCyclePass e channels false ig.columns
            (fil.filter (fun rr => groupKeyOf rr = some key))
            (sortBy valLe (dedup cyclesRaw))
            [("base_path", Val.vStr b), ("plate", plate), ("well", key.1), ("site", key.2)]
            = some i ∧
          r = m ++ o ++ i) ∧
    (∀ l : List Val, List.Chain' (fun a b => valLe a b = true) (sortBy valLe l)) ∧
    listIndex "FileName_OrigDNA"
      (firstRowKeys (generateStandard evalNone fxSpec fxStdPipe "bp" [fxRow 1 "c1/f1.tif"]))
      = some 1 ∧
    listIndex "FileName_OrigA"
      (firstRowKeys (generateStandard evalNone fxSpec fxStdPipe "bp" [fxRow 1 "c1/f1.tif"]))
      = some 2 ∧
    listIndex "FileName_IllumDNA"
      (firstRowKeys (generateStandard evalNone fxSpec fxStdPipe "bp" [fxRow 1 "c1/f1.tif"]))
      = some 3 ∧
    listIndex "FileName_IllumA"
      (firstRowKeys (generateStandard evalNone fxSpec fxStdPipe "bp" [fxRow 1 "c1/f1.tif"]))
      = some 4 := by
  refine ⟨generateStandard_eq_mapM, ?_, generateWideFormat_eq_mapM, ?_,
    fun l => chain'_sortBy valLe valLe_total l,
    by decide, by decide, by decide, by decide⟩
  · intro e spec p b row og ig r hog hig hrun
    exact generateStandardRow_split e spec p b row og ig r hog hig hrun
  · intro e spec p b fil key og ig r hog hig hrun
    exact wideRowFor_split e spec p b fil key og ig r hog hig hrun

/-- Claim C5, witness: the standard-row decomposition applied at the
concrete standard fixture pipeline and one sample row. -/
theorem c5_witness :
    ∃ m channels o i,
      emitColumns evalNone fxStdPipe.columns.metadata (fxRow 1 "c1/f1.tif")
        (stdTemplateVars "bp" (fxRow 1 "c1/f1.tif")) = some m ∧
      getChannels fxSpec fxStdOrigGrp.channels = some channels ∧
      stdChannelPass evalNone channels
        (resolveChannelIndex (rowChannels (fxRow 1 "c1/f1.tif") channels) channels)
        fxStdOrigGrp.columns (fxRow 1 "c1/f1.tif")
        (stdTemplateVars "bp" (fxRow 1 "c1/f1.tif")) = some o ∧
      stdChannelPass evalNone channels (fun _ => some 0) fxStdIllumGrp.columns
        (fxRow 1 "c1/f1.tif") (stdTemplateVars "bp" (fxRow 1 "c1/f1.tif")) = some i ∧
      (generateStandardRow evalNone fxSpec fxStdPipe "bp" (fxRow 1 "c1/f1.tif")).getD []
        = m ++ o ++ i :=
  c5_orig_before_illum.2.1 evalNone fxSpec fxStdPipe "bp" (fxRow 1 "c1/f1.tif")
    fxStdOrigGrp fxStdIllumGrp
    ((generateStandardRow evalNone fxSpec fxStdPipe "bp" (fxRow 1 "c1/f1.tif")).getD [])
    rfl rfl (by decide)

end Pcpip
